import Mathlib

/-!
Shallow embedding of the `criticality-on-neural-network` repository
(`src/connectivity.py`, `src/network.py`, `src/analysis.py`) and proofs
about it.  Real vectors/matrices are modelled over `ℚ`; vectors are
`List ℚ` (a numpy column of shape (n,1) collapsed to its n entries) and
matrices are `List (List ℚ)` (list of rows).  Randomness is passed in
explicitly: every `np.random.*` draw of the source becomes an argument,
so theorems quantifying over the draws cover every realization.
-/

namespace Criticality

abbrev Vec := List ℚ
abbrev Mat := List (List ℚ)

/-- Boolean spike indicator viewed as a number, as numpy upcasts `bool`
to `float` in arithmetic. -/
def boolToRat (b : Bool) : ℚ := if b then 1 else 0

def vecAdd (a b : Vec) : Vec := List.zipWith (· + ·) a b

def vecSub (a b : Vec) : Vec := List.zipWith (· - ·) a b

def vecSMul (c : ℚ) (a : Vec) : Vec := a.map (c * ·)

/-- Elementwise product of two numpy column vectors. -/
def vecMul (a b : Vec) : Vec := List.zipWith (· * ·) a b

def matAdd (A B : Mat) : Mat := List.zipWith vecAdd A B

def matSub (A B : Mat) : Mat := List.zipWith vecSub A B

def matSMul (c : ℚ) (A : Mat) : Mat := A.map (vecSMul c)

/-! ## `src/analysis.py` — avalanche statistics -/

/-- Nonzero positions of `series.astype(int).diff().fillna(0) != 0`
(source `analysis.py` lines 15–16), in ascending order: position 0 is
never a transition (`fillna(0)`), and position `i+1` is a transition iff
`l[i+1] ≠ l[i]`.  `i` is the position of the head of the remaining
list. -/
def eventIndexesFrom (i : ℕ) : List Bool → List ℕ
  | a :: b :: rest =>
      (if a ≠ b then [i + 1] else []) ++ eventIndexesFrom (i + 1) (b :: rest)
  | _ => []

def eventIndexes (l : List Bool) : List ℕ := eventIndexesFrom 0 l

/-- `event_indexes.reshape(-1, 2)` after dropping a trailing odd element
(source `analysis.py` lines 18–21): consecutive disjoint pairs, the last
unpaired index discarded. -/
def reshapePairs : List ℕ → List (ℕ × ℕ)
  | a :: b :: rest => (a, b) :: reshapePairs rest
  | _ => []

/-- `total_spikes[start:end].sum()` (source `analysis.py` line 25). -/
def sliceSum (l : List ℕ) (a b : ℕ) : ℕ := ((l.drop a).take (b - a)).sum

/-- `avalanche_basic_stats` of `src/analysis.py` on the per-step
aggregate activity series (the source first computes
`spike_matrix.sum(axis=0)`; the embedding takes that summed series).
Returns (total_avalanches, avalanche_sizes, avalanche_durations). -/
def avalancheBasicStats (totalSpikesIn : List ℕ) : ℕ × List ℕ × List ℕ :=
  let totalSpikes := 0 :: totalSpikesIn
  let avalanche := totalSpikes.map (fun x => decide (x ≥ 1))
  let avalanchePeriods := reshapePairs (eventIndexes avalanche)
  let avalancheDurations := avalanchePeriods.map (fun p => p.2 - p.1)
  let avalancheSizes := avalanchePeriods.map (fun p => sliceSum totalSpikes p.1 p.2)
  (avalancheSizes.length, avalancheSizes, avalancheDurations)

/-! ## `src/network.py` — the simulation engine -/

/-- Which state variables the history recorder snapshots (the embedding
supports the potential `v` and the spike indicator `s`). -/
inductive HVar
  | v
  | s
deriving DecidableEq

/-- The engine state: the attributes set by `Network.__init__`
(source `network.py` lines 32–62).  `tau_r = 400`, `tau_d = 20` and
`leakage = 0.2` are fixed constants of the source and are embedded as
constants below; `history` is a mapping from recorded variable to its
append-only list of snapshot values. -/
structure Network where
  v : Vec
  s : List Bool
  W0 : Mat
  W : Mat
  omega0 : Vec
  omega : Vec
  r : Option ℚ
  sThalamus : Option (List Bool)
  synapticEfficacy : ℚ
  historyVariables : List HVar
  histV : List Vec
  histS : List (List Bool)

def tauR : ℚ := 400

def tauD : ℚ := 20

def leakage : ℚ := 1 / 5

/-- The `omega` argument of `Network.__init__`: `None`, a plain number,
or an ndarray. -/
inductive OmegaArg
  | default
  | scalar (x : ℚ)
  | array (xs : Vec)

/-- Resolution of the `omega` argument (source `network.py` lines 35–38):
`None` becomes `np.ones((n,1)) * 8 / n`; a non-ndarray scalar becomes
`np.ones((n,1)) * omega / n`; an ndarray is used as given. -/
def mkOmega (n : ℕ) : OmegaArg → Vec
  | OmegaArg.default => (List.replicate n (1 : ℚ)).map (fun x => x * 8 / n)
  | OmegaArg.scalar om => (List.replicate n (1 : ℚ)).map (fun x => x * om / n)
  | OmegaArg.array xs => xs

/-- `Network.__init__` (source `network.py` lines 32–62).  `n_neurons` is
`W.shape[0]`; no validation of any kind is performed (in particular no
shape check between `W` and `v0`).  `W0`/`omega0` are value snapshots
(`.copy()`). -/
def networkInit (W : Mat) (v0 : Option Vec) (omega : OmegaArg)
    (synapticEfficacy : ℚ) (historyVariables : List HVar) : Network :=
  let n := W.length
  let om := mkOmega n omega
  let v0' := v0.getD (List.replicate n 0)
  { v := v0'
    s := List.replicate v0'.length false  -- np.zeros_like(v0)
    W0 := W
    W := W
    omega0 := om
    omega := om
    r := none
    sThalamus := none
    synapticEfficacy := synapticEfficacy
    historyVariables := historyVariables
    histV := []
    histS := [] }

/-- `Network.spike` (source lines 64–67): `s = (v >= rand)` and the
in-place reset `v[s] = 0`; returns `(s, v)`. -/
def spike (v : Vec) (draws : List ℚ) : List Bool × Vec :=
  (List.zipWith (fun x u => decide (x ≥ u)) v draws,
   List.zipWith (fun x u => if x ≥ u then (0 : ℚ) else x) v draws)

/-- `W @ s` for a boolean column `s` (numpy upcasts the booleans). -/
def matVec (W : Mat) (x : Vec) : Vec :=
  W.map (fun row => (List.zipWith (· * ·) row x).sum)

/-- `Network.propagate_spike` (source lines 69–71): `nt = W @ s`. -/
def propagateSpike (W : Mat) (s : List Bool) : Vec :=
  matVec W (s.map boolToRat)

/-- `Network.synapse` (source lines 73–75): `dv = synaptic_efficacy * nt`. -/
def synapse (synapticEfficacy : ℚ) (nt : Vec) : Vec :=
  vecSMul synapticEfficacy nt

/-- `Network.external_input` (source lines 77–79):
`s_thalamus = (rand < r)`; returns `(s_thalamus, s_thalamus * omega)`. -/
def externalInput (r : ℚ) (omega : Vec) (thalDraws : List ℚ) :
    List Bool × Vec :=
  let sThal := thalDraws.map (fun u => decide (u < r))
  (sThal, vecMul (sThal.map boolToRat) omega)

/-- numpy broadcasting of `A * b` for `A` of shape (n,n) and `b` a
boolean column of shape (n,1): every entry of row `i` is multiplied by
`b[i]`. -/
def rowBroadcastMul (A : Mat) (b : Vec) : Mat :=
  List.zipWith (fun row c => row.map (· * c)) A b

/-- The `W` update of `Network.plasticity` (source line 87):
`W + (1/tau_r)*(W0 - W) - (1/tau_d)*W*s` with `s` an (n,1) boolean
column, so `W*s` is the row-broadcast product. -/
def plasticityW (W W0 : Mat) (s : List Bool) : Mat :=
  matSub (matAdd W (matSMul (1 / tauR) (matSub W0 W)))
    (matSMul (1 / tauD) (rowBroadcastMul W (s.map boolToRat)))

/-- The `omega` update of `Network.plasticity` (source line 88):
`omega + (1/tau_r)*(omega0 - omega) - (1/tau_d)*omega*s_thalamus`,
an (n,1)-by-(n,1) elementwise product. -/
def plasticityOmega (om om0 : Vec) (sThal : List Bool) : Vec :=
  vecSub (vecAdd om (vecSMul (1 / tauR) (vecSub om0 om)))
    (vecSMul (1 / tauD) (vecMul om (sThal.map boolToRat)))

/-- The two per-neuron uniform draws one step consumes: one vector for
spike emission (line 65), one for the thalamic input (line 78). -/
structure Draws where
  spikeDraws : List ℚ
  thalDraws : List ℚ

/-- `Network.append_history` (source lines 113–115), recording the
values of the selected variables at call time. -/
def appendHistory (net : Network) : Network :=
  { net with
    histV := if HVar.v ∈ net.historyVariables then net.histV ++ [net.v] else net.histV
    histS := if HVar.s ∈ net.historyVariables then net.histS ++ [net.s] else net.histS }

/-- The synaptic-plus-thalamic potential change of one step
(source lines 105–107): `dv = synapse(propagate_spike(s)) + external_input()`. -/
def deltaV (r : ℚ) (net : Network) (d : Draws) : Vec :=
  vecAdd (synapse net.synapticEfficacy (propagateSpike net.W (spike net.v d.spikeDraws).1))
    (externalInput r net.omega d.thalDraws).2

/-- One iteration of the `run_simulation` loop (source lines 103–111):
spike emission, propagation, external input, membrane update
`v = v + dv - v*leakage`, history append, plasticity.  `r` is `self.r`,
set by `run_simulation` before the loop. -/
def stepNet (r : ℚ) (net : Network) (d : Draws) : Network :=
  let s := (spike net.v d.spikeDraws).1
  let v := (spike net.v d.spikeDraws).2
  let nt := propagateSpike net.W s
  let sThal := (externalInput r net.omega d.thalDraws).1
  let ei := (externalInput r net.omega d.thalDraws).2
  let dv := vecAdd (synapse net.synapticEfficacy nt) ei
  let vNew := vecSub (vecAdd v dv) (vecSMul leakage v)
  let net1 := appendHistory { net with v := vNew, s := s, sThalamus := some sThal }
  { net1 with
    W := plasticityW net1.W net1.W0 s
    omega := plasticityOmega net1.omega net1.omega0 sThal }

/-- The loop of `Network.run_simulation` (source line 103), with the
random stream passed explicitly: step `t` uses `stream (t0 + t)`. -/
def runSimulationAux (r : ℚ) (stream : ℕ → Draws) : Network → ℕ → ℕ → Network
  | net, _, 0 => net
  | net, t0, t + 1 => runSimulationAux r stream (stepNet r net (stream t0)) (t0 + 1) t

/-- `Network.run_simulation` (source lines 90–111): sets `self.r = r`
then iterates the step loop `tmax` times. -/
def runSimulation (net : Network) (r : ℚ) (tmax : ℕ) (stream : ℕ → Draws)
    (t0 : ℕ) : Network :=
  runSimulationAux r stream { net with r := some r } t0 tmax

def runScheduleGo (stream : ℕ → Draws) : Network → List (ℕ × ℚ) → ℕ → Network
  | net, [], _ => net
  | net, (tmax, r) :: rest, t0 =>
      runScheduleGo stream (runSimulation net r tmax stream t0) rest (t0 + tmax)

/-- `Network.run_schedule` (source lines 120–123): asserts the two lists
have the same length, then runs the phases back to back. -/
def runSchedule (net : Network) (stimDurations : List ℕ) (stimStrengths : List ℚ)
    (stream : ℕ → Draws) (t0 : ℕ) : Except String Network :=
  if stimDurations.length = stimStrengths.length then
    Except.ok (runScheduleGo stream net (stimDurations.zip stimStrengths) t0)
  else
    Except.error "Should be same size"

/-! ### Spec-side formalisations used by corrected claims -/

/-- Formalisation of the claim's membrane formula (spec §4.2 step 4 as
claimed): leakage applied to the pre-leakage updated potential
`v_reset + dv`, i.e. `(v_reset + dv) - leakage*(v_reset + dv)`. -/
def claimMembraneUpdate (vReset dv : Vec) : Vec :=
  vecSub (vecAdd vReset dv) (vecSMul leakage (vecAdd vReset dv))

/-- Formalisation of the claim's depression mask: `W` with column `j`
kept only where `s[j]` is true. -/
def colMask (A : Mat) (s : List Bool) : Mat :=
  A.map (fun row => List.zipWith (fun w sj => w * boolToRat sj) row s)

/-- Formalisation of the claim's plasticity update: column-wise
depression by the presynaptic spike vector. -/
def claimPlasticityW (W W0 : Mat) (s : List Bool) : Mat :=
  matSub (matAdd W (matSMul (1 / tauR) (matSub W0 W)))
    (matSMul (1 / tauD) (colMask W s))

/-- `A` with row `i` kept only where `s[i]` is true and zeroed
elsewhere. -/
def rowMask (A : Mat) (s : List Bool) : Mat :=
  List.zipWith (fun row si => if si then row else List.replicate row.length (0 : ℚ)) A s

/-- Concrete one-neuron engine used by counterexamples: `W = [[0]]`,
`v0 = [1/2]`, `omega = [1]`, default synaptic efficacy 0.3. -/
def net0C2 : Network := networkInit [[0]] (some [1/2]) (OmegaArg.array [1]) (3/10) []

/-- One step's draws: spike draw 3/4 (no spike at potential 1/2),
thalamic draw 1/2. -/
def d0C2 : Draws := ⟨[3/4], [1/2]⟩

/-! ## `src/connectivity.py` — topology generators -/

/-- The `avg_strength` parameter: the string `'auto'` or an explicit
numeric value. -/
inductive AvgStrength
  | auto
  | val (x : ℚ)

/-- `W.mean()`: the sum of all entries divided by their number. -/
def matMean (A : Mat) : ℚ :=
  (A.map (fun row => row.sum)).sum / ((A.map (fun row => row.length)).sum : ℕ)

/-- `W[:, random_inhib] = -1 * W[:, random_inhib]` (source
`connectivity.py` line 39): in every row, negate the entries of
inhibitory columns. -/
def negInhibCols (A : Mat) (inhib : List Bool) : Mat :=
  A.map (fun row => List.zipWith (fun w b => if b then -w else w) row inhib)

/-- `for i in range(n): W[i, i] = 0` (source lines 49–50). -/
def zeroDiag (A : Mat) : Mat :=
  A.enum.map (fun p => p.2.set p.1 0)

/-- `fully_connected_network` (source lines 4–52), with the two random
draws passed explicitly: `U` is the `np.random.rand(n, n)` matrix and
`inhibDraws` the `np.random.rand(n)` vector.  The only failure path in
the source is the `assert proportion_inhib < .5`; in particular the
normalization `ratio = avg_strength / W.mean()` performs no zero-mean
check (with a zero mean, numpy produces `Inf`/`NaN` weights silently;
the `ℚ` model's division-by-zero convention makes `ratio = 0`, and
either way no error is raised). -/
def fullyConnectedNetwork (n : ℕ) (proportionInhib : ℚ)
    (avgStrength : AvgStrength) (U : Mat) (inhibDraws : List ℚ) :
    Except String Mat :=
  if proportionInhib < 1/2 then
    let inhib := inhibDraws.map (fun u => decide (u < proportionInhib))
    let W1 := negInhibCols U inhib
    let avg : ℚ :=
      match avgStrength with
      | AvgStrength.auto => 1 / n
      | AvgStrength.val a => a
    let ratio := avg / matMean W1
    Except.ok (zeroDiag (matSMul ratio W1))
  else
    Except.error "You must have less than half inhibitory"

/-- `nearest_neighbors(i)` (source lines 86–91): the ring window
`range(i - floor(k/2), i + ceil(k/2) + 1)` with `i` itself removed,
taken mod `n`. -/
def nearestNeighbors (n k i : ℕ) : List ℕ :=
  let left : ℤ := k / 2
  (((List.range (k + 1)).map (fun t => (i : ℤ) - left + t)).filter
    (fun z => z != (i : ℤ))).map (fun z => (z % (n : ℤ)).toNat)

/-- Elementwise matrix product `A * B`. -/
def matElemMul (A B : Mat) : Mat := List.zipWith vecMul A B

/-- `square_lattice_network` (source lines 55–103): for `'auto'` the
average strength becomes `1/k`; the result is the 0/1 nearest-neighbor
mask (`W[nearest_neighbors(i), i] = 1`) times the fully connected base
weights. -/
def squareLatticeNetwork (n k : ℕ) (proportionInhib : ℚ)
    (avgStrength : AvgStrength) (U : Mat) (inhibDraws : List ℚ) :
    Except String Mat :=
  let avg : AvgStrength :=
    match avgStrength with
    | AvgStrength.auto => AvgStrength.val (1 / k)
    | a => a
  (fullyConnectedNetwork n proportionInhib avg U inhibDraws).map (fun base =>
    let mask : Mat := (List.range n).map (fun row =>
      (List.range n).map (fun col =>
        if row ∈ nearestNeighbors n k col then (1 : ℚ) else 0))
    matElemMul mask base)

/-- Row-major nonzero coordinates `(out_index, in_index)`, in the order
`np.nonzero` returns them (source line 141). -/
def nonzeroIndexes (A : Mat) : List (ℕ × ℕ) :=
  (A.enum.map (fun p =>
    p.2.enum.filterMap (fun q =>
      if q.2 ≠ 0 then some (p.1, q.1) else none))).flatten

def getEntry (A : Mat) (i j : ℕ) : ℚ := (A.getD i []).getD j 0

def setEntry (A : Mat) (i j : ℕ) (x : ℚ) : Mat :=
  A.set i ((A.getD i []).set j x)

/-- Python 3 `round`: banker's rounding, half to even. -/
def pyRound (q : ℚ) : ℤ :=
  let f := ⌊q⌋
  let frac := q - f
  if frac < 1/2 then f
  else if 1/2 < frac then f + 1
  else if f % 2 = 0 then f else f + 1

/-- `small_world_network` (source lines 106–151).  Random inputs: `U`,
`inhibDraws` as in the base generator; `rewireChoice` models
`np.random.choice(len(out_index), round(r*len), replace=False)` (its
first `round(r*len)` entries are the chosen positions); `newOutDraws`
models `np.random.choice(n, len(out_rewire))` — note the source draws
the new source rows from all of `range(n)` with no exclusion.  The two
fancy-index assignments are sequential writes (duplicate indices: last
write wins, as in numpy). -/
def smallWorldNetwork (n k : ℕ) (r proportionInhib : ℚ)
    (avgStrength : AvgStrength) (U : Mat) (inhibDraws : List ℚ)
    (rewireChoice : List ℕ) (newOutDraws : List ℕ) : Except String Mat :=
  (squareLatticeNetwork n k proportionInhib avgStrength U inhibDraws).map
    (fun base =>
      let nz := nonzeroIndexes base
      let count := (pyRound (r * nz.length)).toNat
      let rewirePairs := (rewireChoice.take count).map (fun m => nz.getD m (0, 0))
      let W1 := rewirePairs.foldl (fun W p => setEntry W p.1 p.2 0) base
      let newOut := newOutDraws.take rewirePairs.length
      (newOut.zip rewirePairs).foldl
        (fun W q => setEntry W q.1 q.2.2 (getEntry base q.2.1 q.2.2)) W1)

/-! ## Buffer-level model of the history recorder (for aliasing)

The value-level `Network.histV` above records snapshot values; the
source, however, appends `getattr(self, 'v')` — a reference to the live
numpy array.  `AliasedNet` makes the buffers explicit: arrays live in a
store `heap`, `self.v` is the index of its current buffer, and the
recorded history is a list of buffer indices.  `spike` (line 66,
`v[s] = 0`) writes into the existing buffer; the membrane update
(line 108, `self.v = v + dv - v * self.leakage`) allocates a fresh
buffer and rebinds `self.v` to it. -/

structure AliasedNet where
  heap : List Vec
  vIdx : ℕ
  sVal : List Bool
  W0 : Mat
  W : Mat
  omega0 : Vec
  omega : Vec
  sThalamus : List Bool
  synapticEfficacy : ℚ
  histV : List ℕ

/-- One loop iteration of `run_simulation` at the buffer level
(source lines 103–111), recording `v` in the history. -/
def stepAliased (r : ℚ) (net : AliasedNet) (d : Draws) : AliasedNet :=
  let v := net.heap.getD net.vIdx []
  let s := (spike v d.spikeDraws).1
  let vReset := (spike v d.spikeDraws).2
  let heap1 := net.heap.set net.vIdx vReset
  let nt := propagateSpike net.W s
  let sThal := (externalInput r net.omega d.thalDraws).1
  let ei := (externalInput r net.omega d.thalDraws).2
  let dv := vecAdd (synapse net.synapticEfficacy nt) ei
  let vNew := vecSub (vecAdd vReset dv) (vecSMul leakage vReset)
  { net with
    heap := heap1 ++ [vNew]
    vIdx := heap1.length
    sVal := s
    sThalamus := sThal
    histV := net.histV ++ [heap1.length]
    W := plasticityW net.W net.W0 s
    omega := plasticityOmega net.omega net.omega0 sThal }

/-- The numeric contents of the recorded `v` history, read through the
stored references. -/
def readHistV (net : AliasedNet) : List Vec :=
  net.histV.map (fun i => net.heap.getD i [])

/-- One neuron, `W = [[0]]`, `omega = [1]`, initial potential 3/2. -/
def aliasedInit : AliasedNet :=
  { heap := [[3/2]], vIdx := 0, sVal := [false], W0 := [[0]], W := [[0]],
    omega0 := [1], omega := [1], sThalamus := [false],
    synapticEfficacy := 3/10, histV := [] }

/-- Per-step draws for the aliasing run: spike draw 1/2, thalamic
draw 1/2. -/
def dAlias : Draws := ⟨[1/2], [1/2]⟩

/-! ## numpy matmul with its shape check (for construction claims) -/

/-- numpy `W @ x` including its shape check: `none` when the row length
does not match `len(x)` (numpy raises `ValueError` there). -/
def matVecChecked (W : Mat) (x : Vec) : Option Vec :=
  if W.all (fun row => row.length == x.length) then
    some (W.map (fun row => (List.zipWith (· * ·) row x).sum))
  else
    none

/-- Engine built from a 2×2 weight matrix and a length-3 initial
potential vector — a shape mismatch. -/
def netC8 : Network :=
  networkInit [[0, 1/2], [1/2, 0]] (some [0, 0, 0]) OmegaArg.default (3/10) []

def exceptIsOk (e : Except String Mat) : Bool :=
  match e with
  | Except.ok _ => true
  | Except.error _ => false

/-- The all-1/2 uniform draw matrix for 4 neurons. -/
def UC3 : Mat := List.replicate 4 (List.replicate 4 (1/2))

/-! ### Supporting lemmas -/

theorem reshapePairs_length (l : List ℕ) :
    (reshapePairs l).length = l.length / 2 := by
  induction l using reshapePairs.induct with
  | case1 a b rest ih =>
      simp only [reshapePairs, List.length_cons, ih]
      omega
  | case2 l h =>
      cases l with
      | nil => simp [reshapePairs]
      | cons a t =>
          cases t with
          | nil => simp [reshapePairs]
          | cons b r => exact absurd rfl (h a b r)

theorem eventIndexesFrom_replicate (b : Bool) (n i : ℕ) :
    eventIndexesFrom i (List.replicate n b) = [] := by
  induction n generalizing i with
  | zero => rfl
  | succ k ih =>
      cases k with
      | zero => rfl
      | succ m =>
          simp only [List.replicate] at *
          simpa [eventIndexesFrom] using ih (i + 1)

theorem reshapePairs_take_even (l : List ℕ) :
    reshapePairs l = reshapePairs (l.take (2 * (l.length / 2))) := by
  induction l using reshapePairs.induct with
  | case1 a b rest ih =>
      have h2 : 2 * ((a :: b :: rest).length / 2) = 2 * (rest.length / 2) + 2 := by
        simp only [List.length_cons]; omega
      rw [h2]
      simp only [List.take_succ_cons, reshapePairs]
      rw [ih]
  | case2 l hcase =>
      cases l with
      | nil => rfl
      | cons a t =>
          cases t with
          | nil => simp [reshapePairs]
          | cons b r => exact absurd rfl (hcase a b r)

theorem rowBroadcastMul_boolToRat (A : Mat) (s : List Bool) :
    rowBroadcastMul A (s.map boolToRat) = rowMask A s := by
  induction A generalizing s with
  | nil => rfl
  | cons row rows ih =>
      cases s with
      | nil => rfl
      | cons b bs =>
          simp only [rowBroadcastMul, rowMask, List.map_cons,
            List.zipWith_cons_cons] at *
          refine congrArg₂ List.cons ?_ (ih bs)
          cases b with
          | true => simp [boolToRat]
          | false => simp [boolToRat, List.map_const']

theorem vecSub_vecAdd_smul (l : ℚ) (a b : Vec) :
    vecSub (vecAdd a b) (vecSMul l a) =
      List.zipWith (fun x y => (1 - l) * x + y) a b := by
  induction a generalizing b with
  | nil => rfl
  | cons x xs ih =>
      cases b with
      | nil => rfl
      | cons y ys =>
          simp only [vecAdd, vecSub, vecSMul, List.map_cons,
            List.zipWith_cons_cons]
          refine congrArg₂ List.cons (by ring) (ih ys)

theorem stepNet_r (r : ℚ) (net : Network) (d : Draws) :
    (stepNet r net d).r = net.r := rfl

theorem runSimulationAux_r (r : ℚ) (stream : ℕ → Draws) (net : Network)
    (t0 t : ℕ) : (runSimulationAux r stream net t0 t).r = net.r := by
  induction t generalizing net t0 with
  | zero => rfl
  | succ k ih =>
      simp only [runSimulationAux]
      rw [ih, stepNet_r]

theorem runSimulationAux_add (r : ℚ) (stream : ℕ → Draws) (net : Network)
    (t0 a b : ℕ) :
    runSimulationAux r stream net t0 (a + b) =
      runSimulationAux r stream (runSimulationAux r stream net t0 a) (t0 + a) b := by
  induction a generalizing net t0 with
  | zero => simp only [runSimulationAux, Nat.add_zero, Nat.zero_add]
  | succ k ih =>
      have h1 : k + 1 + b = (k + b) + 1 := by omega
      rw [h1]
      simp only [runSimulationAux]
      rw [ih]
      have h2 : t0 + 1 + k = t0 + (k + 1) := by omega
      rw [h2]

theorem network_set_r_self (net : Network) (r : ℚ) (h : net.r = some r) :
    { net with r := some r } = net := by
  cases net
  simp_all

/-! ### Claim theorems -/

/-- C1 counterexample: the depression term of `Network.plasticity` does
not mask columns by the presynaptic spike vector.  With
`W = W0 = [[1,1],[1,1]]` and `s = [true, false]`, the source update
depresses both entries of row 0 (giving `[[19/20,19/20],[1,1]]`) while
the claimed column-wise update would give `[[19/20,1],[19/20,1]]`. -/
theorem plasticity_depression_counterexample :
    plasticityW [[1, 1], [1, 1]] [[1, 1], [1, 1]] [true, false] ≠
      claimPlasticityW [[1, 1], [1, 1]] [[1, 1], [1, 1]] [true, false] :=
  of_decide_eq_true (by with_unfolding_all rfl)

/-- C1 amended: in the plasticity sub-step the depression term
multiplies each *row* `i` of `W` by whether *postsynaptic* neuron `i`
spiked this step (numpy broadcasting of the (n,n) matrix with the (n,1)
spike column), so the updated matrix equals
`W + (1/tau_r)*(W0 - W) - (1/tau_d)*(W with row i kept only where s[i])`;
entries in rows of non-spiking postsynaptic neurons receive no
depression. -/
theorem plasticity_depression_rowwise (W W0 : Mat) (s : List Bool) :
    plasticityW W W0 s =
      matSub (matAdd W (matSMul (1 / tauR) (matSub W0 W)))
        (matSMul (1 / tauD) (rowMask W s)) := by
  simp only [plasticityW, rowBroadcastMul_boolToRat]

/-- C2 counterexample: at potential 1/2 (no spike at draw 3/4), with
thalamic input 1 delivered, the source membrane update
`v + dv - v*leakage` yields `[7/5]`, while the claimed formula
`(v_reset + dv) - leakage*(v_reset + dv)` yields `[6/5]`. -/
theorem membrane_leakage_counterexample :
    (stepNet 1 net0C2 d0C2).v ≠
      claimMembraneUpdate (spike net0C2.v d0C2.spikeDraws).2
        (deltaV 1 net0C2 d0C2) :=
  of_decide_eq_true (by with_unfolding_all rfl)

/-- C2 amended: in the membrane update of every step, the leakage term
uses the *reset* potential, not the pre-leakage updated potential: the
new potential equals `(v_reset + dv) - leakage*v_reset`, i.e.
`(1 - leakage)*v_reset + dv` per neuron. -/
theorem membrane_leakage_from_reset (r : ℚ) (net : Network) (d : Draws) :
    (stepNet r net d).v =
      List.zipWith (fun x y => (1 - leakage) * x + y)
        (spike net.v d.spikeDraws).2 (deltaV r net d) := by
  have h : (stepNet r net d).v =
      vecSub (vecAdd (spike net.v d.spikeDraws).2 (deltaV r net d))
        (vecSMul leakage (spike net.v d.spikeDraws).2) := rfl
  rw [h, vecSub_vecAdd_smul]

/-- C3 (code bug): a realization of `small_world_network` with a
nonzero diagonal entry.  With n = 4, k = 2, r = 1/8, no inhibition and
all uniform draws 1/2, the lattice has 8 edges, one edge is rewired
(edge (0,1), weight 1/2), and the `np.random.choice(n, ...)` draw for
the new source row is 1 — the source does not exclude the edge's input
neuron 1, so the weight is written to `W[1,1]`: the returned matrix has
`W[1,1] = 1/2 ≠ 0`. -/
theorem small_world_nonzero_diagonal :
    (smallWorldNetwork 4 2 (1/8) 0 AvgStrength.auto UC3 [1, 1, 1, 1]
        [0] [1]).toOption.map (fun W => getEntry W 1 1) = some (1/2) ∧
    (1 : ℚ) / 2 ≠ 0 :=
  ⟨of_decide_eq_true (by with_unfolding_all rfl),
   of_decide_eq_true (by with_unfolding_all rfl)⟩

/-- C4 (code bug): `append_history` stores a reference, not a copy.  In
the buffer-level model, after step 1 the recorded snapshot of `v` reads
`[1]`; running step 2 (whose `spike` resets the same buffer in place)
retroactively changes that recorded snapshot to `[0]` while appending
its own `[19/20]`. -/
theorem history_alias_corruption :
    readHistV (stepAliased 1 aliasedInit dAlias) = [[1]] ∧
    readHistV (stepAliased 1 (stepAliased 1 aliasedInit dAlias) dAlias) =
      [[0], [19/20]] :=
  ⟨of_decide_eq_true (by with_unfolding_all rfl),
   of_decide_eq_true (by with_unfolding_all rfl)⟩

/-- C5: on the activity series `[0,0,2,3,0,0,1,0]` the analyzer returns
exactly 2 avalanches with sizes `[5, 1]` and durations `[2, 1]`; and in
general each reported duration is the end transition index minus the
start transition index, and each reported size is the sum of activity
from the start index (inclusive) to the end index (exclusive). -/
theorem avalanche_concrete_and_general :
    avalancheBasicStats [0, 0, 2, 3, 0, 0, 1, 0] = (2, [5, 1], [2, 1]) ∧
    ∀ ts : List ℕ,
      (avalancheBasicStats ts).2.2 =
        (reshapePairs (eventIndexes ((0 :: ts).map (fun x => decide (x ≥ 1))))).map
          (fun p => p.2 - p.1) ∧
      (avalancheBasicStats ts).2.1 =
        (reshapePairs (eventIndexes ((0 :: ts).map (fun x => decide (x ≥ 1))))).map
          (fun p => sliceSum (0 :: ts) p.1 p.2) :=
  ⟨by decide, fun ts => ⟨rfl, rfl⟩⟩

/-- C6: the analyzer reports only complete avalanches — its count and
its two parallel sequences have length `⌊transitions/2⌋` (so with an odd
number of transitions the final unterminated avalanche is dropped: the
pairing uses only the even-length prefix of the transition list), and a
transition-free (e.g. all-quiescent) series yields count 0 and two
empty sequences rather than an error. -/
theorem avalanche_unterminated_dropped (ts : List ℕ) (n : ℕ) :
    (avalancheBasicStats ts).1 =
      (eventIndexes ((0 :: ts).map (fun x => decide (x ≥ 1)))).length / 2 ∧
    (avalancheBasicStats ts).2.1.length = (avalancheBasicStats ts).1 ∧
    (avalancheBasicStats ts).2.2.length = (avalancheBasicStats ts).1 ∧
    reshapePairs (eventIndexes ((0 :: ts).map (fun x => decide (x ≥ 1)))) =
      reshapePairs ((eventIndexes ((0 :: ts).map (fun x => decide (x ≥ 1)))).take
        (2 * ((eventIndexes ((0 :: ts).map (fun x => decide (x ≥ 1)))).length / 2))) ∧
    avalancheBasicStats (List.replicate n 0) = (0, [], []) := by
  refine ⟨?_, rfl, ?_, reshapePairs_take_even _, ?_⟩
  · simp [avalancheBasicStats, reshapePairs_length]
  · simp [avalancheBasicStats]
  · have h0 : (0 : ℕ) :: List.replicate n 0 = List.replicate (n + 1) 0 := by
      simp [List.replicate_succ]
    simp [avalancheBasicStats, h0, List.map_replicate, eventIndexes,
      eventIndexesFrom_replicate, reshapePairs]

/-- C7 (code bug): `fully_connected_network` performs no zero-mean
check.  With n = 2, all uniform weight draws 1/2 and the second neuron
inhibitory, the signed matrix mean is exactly 0, yet the function
returns `Except.ok` (numpy silently produces `Inf`/`NaN` weights from
`avg_strength / 0`; the model's `ℚ` division-by-zero convention yields
a zero matrix) — there is no defined degenerate-topology failure. -/
theorem zero_mean_no_defined_failure :
    matMean (negInhibCols [[1/2, 1/2], [1/2, 1/2]] [false, true]) = 0 ∧
    exceptIsOk (fullyConnectedNetwork 2 (1/4) AvgStrength.auto
      [[1/2, 1/2], [1/2, 1/2]] [1, 0]) = true :=
  ⟨of_decide_eq_true (by with_unfolding_all rfl),
   of_decide_eq_true (by with_unfolding_all rfl)⟩

/-- C8 (code bug): `Network.__init__` performs no shape validation.
Constructed from a 2×2 weight matrix and a length-3 initial potential,
the engine is created with the mismatched vector stored verbatim; the
mismatch surfaces only later, at the first step's `W @ s`
(`matVecChecked` returns `none`, where numpy raises `ValueError`) —
construction does not fail. -/
theorem shape_mismatch_deferred :
    netC8.v = [0, 0, 0] ∧
    netC8.W = [[0, 1/2], [1/2, 0]] ∧
    matVecChecked netC8.W
      ((spike netC8.v [1/2, 1/2, 1/2]).1.map boolToRat) = none :=
  ⟨of_decide_eq_true (by with_unfolding_all rfl),
   of_decide_eq_true (by with_unfolding_all rfl),
   of_decide_eq_true (by with_unfolding_all rfl)⟩

/-- C9: running the schedule `[d1, d2]` both at drive `r` is exactly
running one phase of duration `d1 + d2` at drive `r` over the same
random stream: same final state (including recorded history) — no
neuron or synaptic state is reset between phases. -/
theorem schedule_equivalence (net : Network) (r : ℚ) (d1 d2 t0 : ℕ)
    (stream : ℕ → Draws) :
    runSchedule net [d1, d2] [r, r] stream t0 =
      Except.ok (runSimulation net r (d1 + d2) stream t0) := by
  have hlen : ([d1, d2] : List ℕ).length = ([r, r] : List ℚ).length := rfl
  simp only [runSchedule, if_pos hlen, List.zip_cons_cons, List.zip_nil_right,
    runScheduleGo]
  have hkey : runSimulation (runSimulation net r d1 stream t0) r d2 stream
      (t0 + d1) = runSimulation net r (d1 + d2) stream t0 := by
    simp only [runSimulation]
    rw [runSimulationAux_add]
    have hr : (runSimulationAux r stream { net with r := some r } t0 d1).r =
        some r := by
      rw [runSimulationAux_r]
    rw [network_set_r_self _ r hr]
  rw [hkey]

/-- C10: constructing the engine with a scalar (non-array) thalamic
weight `omega` yields the constant thalamic weight vector with every
entry `omega / n_neurons` (both the live copy and the baseline) — the
scalar is scaled down by the neuron count. -/
theorem scalar_omega_scaled_by_n (W : Mat) (v0 : Option Vec) (om se : ℚ)
    (hv : List HVar) :
    (networkInit W v0 (OmegaArg.scalar om) se hv).omega =
      List.replicate W.length (om / W.length) ∧
    (networkInit W v0 (OmegaArg.scalar om) se hv).omega0 =
      List.replicate W.length (om / W.length) := by
  constructor <;> simp [networkInit, mkOmega, List.map_replicate]

end Criticality
